import Mathlib

/-!
Shallow embedding of `scripts/validate.mjs` from the openpretext-strategies
repository: a validator for a directory of strategy JSON documents.

JSON values are modelled by the inductive `Json`.  File reading plus
`JSON.parse` (one `try` block in the source) is modelled by a value of
`Except String Json`: `.error msg` is the message of the exception thrown by
either `readFile` or `JSON.parse`, `.ok j` the parsed value.  Console output
is modelled explicitly as lists of printed lines, so that the printing
behaviour of each function is part of its value.
-/

/-- JSON values as produced by `JSON.parse`.  Object key lists are in
insertion order and free of duplicates (as `JSON.parse` guarantees);
numbers are modelled by integers (no claim depends on float behaviour). -/
inductive Json where
  | null
  | bool (b : Bool)
  | num (n : Int)
  | str (s : String)
  | arr (elems : List Json)
  | obj (fields : List (String × Json))

mutual

/-- JavaScript `String(v)` for a parsed JSON value, as used by template
literals: strings verbatim, `null`/booleans/numbers by their literal text,
arrays joined by commas (with `null` elements rendered empty, per
`Array.prototype.join`), plain objects as `[object Object]`. -/
def jsToString : Json → String
  | .null => "null"
  | .bool true => "true"
  | .bool false => "false"
  | .num n => toString n
  | .str s => s
  | .obj _ => "[object Object]"
  | .arr elems => jsJoin elems

/-- `Array.prototype.join(",")` over ToString of the elements, with `null`
elements rendered as the empty string. -/
def jsJoin : List Json → String
  | [] => ""
  | [Json.null] => ""
  | [e] => jsToString e
  | Json.null :: rest => "," ++ jsJoin rest
  | e :: rest => jsToString e ++ "," ++ jsJoin rest

end

/-- `VALID_CATEGORIES` from the source. -/
def VALID_CATEGORIES : List String := ["general", "pattern", "workflow", "organism"]

/-- Character class `[a-z0-9]` of `FILENAME_RE`. -/
def isLowerDigit (c : Char) : Bool :=
  (decide ('a' ≤ c) && decide (c ≤ 'z')) || (decide ('0' ≤ c) && decide (c ≤ '9'))

/-- JavaScript `f.endsWith('.json')`, over the character list of `f`. -/
def endsWithJson (f : String) : Bool :=
  f.toList.drop (f.toList.length - 5) == ['.', 'j', 's', 'o', 'n']

/-- Split a character list at every `-` (JS `split('-')` semantics: empty
segments appear for leading, trailing or doubled dashes). -/
def splitOnDash : List Char → List (List Char)
  | [] => [[]]
  | c :: rest =>
    if c = '-' then [] :: splitOnDash rest
    else
      match splitOnDash rest with
      | g :: gs => (c :: g) :: gs
      | [] => [[c]]

/-- `FILENAME_RE.test filename` for the anchored regex
`^[a-z0-9]+(-[a-z0-9]+)*\.json$`: the name ends in `.json` and the part
before it splits on `-` into nonempty runs of `[a-z0-9]`. -/
def filenameMatches (filename : String) : Bool :=
  let cs := filename.toList
  endsWithJson filename &&
    (splitOnDash (cs.take (cs.length - 5))).all fun g =>
      !g.isEmpty && g.all isLowerDigit

/-- Index of the last `.` in a character list, if any. -/
def lastDotIdx : List Char → Option Nat
  | [] => none
  | c :: cs =>
    match lastDotIdx cs with
    | some i => some (i + 1)
    | none => if c = '.' then some 0 else none

/-- `basename(filename, extname(filename))` from `node:path` for a plain
file name (no directory separators): drop the extension starting at the
last `.`, unless there is no `.` or the only `.` is the leading character. -/
def stemOf (filename : String) : String :=
  match lastDotIdx filename.toList with
  | none => filename
  | some 0 => filename
  | some i => String.mk (filename.toList.take i)

/-- Diagnostic message texts of `validateFile`, verbatim from the source. -/
def filenameMsg (filename : String) : String :=
  "Filename \"" ++ filename ++ "\" must be lowercase, hyphenated (e.g., my-strategy.json)"

def invalidJsonMsg (m : String) : String := "Invalid JSON: " ++ m

def topLevelMsg : String := "Top-level value must be a JSON object"

def idMsg : String := "Required field \"id\" is missing or not a non-empty string"

def idMismatchMsg (idVal stem : String) : String :=
  "id \"" ++ idVal ++ "\" does not match filename stem \"" ++ stem ++ "\""

def nameMsg : String := "Required field \"name\" is missing or not a non-empty string"

def supplementMsg : String := "Required field \"supplement\" is missing or not a string"

def descriptionWarnMsg : String :=
  "Field \"description\" is missing (will default to empty string on import)"

def descriptionErrMsg : String := "Field \"description\" must be a string"

def categoryWarnMsg : String :=
  "Field \"category\" is missing (will default to \"general\" on import)"

def categoryErrMsg (v : Json) : String :=
  "Field \"category\" is \"" ++ jsToString v ++ "\", must be one of: " ++
    String.intercalate ", " VALID_CATEGORIES

def examplesWarnMsg : String :=
  "Field \"examples\" is missing (will default to empty array on import)"

def examplesErrMsg : String := "Field \"examples\" must be an array"

def exampleShapeMsg (i : Nat) : String :=
  "examples[" ++ toString i ++ "]: must be an object with \"scenario\" and \"commands\" strings"

def scenarioMsg (i : Nat) : String :=
  "examples[" ++ toString i ++ "]: \"scenario\" must be a string"

def commandsMsg (i : Nat) : String :=
  "examples[" ++ toString i ++ "]: \"commands\" must be a string"

def unknownFieldMsg (key : String) : String :=
  "Unknown field \"" ++ key ++ "\" (will be ignored on import)"

/-- Result of `validateFile`: the local `errors` and `warnings` arrays, the
extracted `id` (JS `null` is `none`), and every line the call printed to the
console (the header plus what `printResults` printed). -/
structure FileResult where
  errors : List String
  warnings : List String
  id : Option String
  output : List String
deriving Repr, DecidableEq

/-- `printResults(errors, warnings)`: the lines it logs. -/
def printResults (errors warnings : List String) : List String :=
  if errors.isEmpty && warnings.isEmpty then ["  ok"]
  else errors.map (fun m => "  FAIL  " ++ m) ++ warnings.map (fun m => "  WARN  " ++ m)

/-- Step 1 of `validateFile`: the filename-convention error, if any. -/
def filenameErrors (filename : String) : List String :=
  if filenameMatches filename then [] else [filenameMsg filename]

/-- The `id` check of `validateFile` (lines 105-114): errors, warnings and
the extracted id it contributes.  `typeof parsed.id !== 'string' ||
!parsed.id` fails on an absent key, a non-string value, or `""`. -/
def idCheck (filename : String) (fields : List (String × Json)) :
    List String × List String × Option String :=
  match fields.lookup "id" with
  | some (.str s) =>
    if s.isEmpty then ([idMsg], [], none)
    else if s = stemOf filename then ([], [], some s)
    else ([], [idMismatchMsg s (stemOf filename)], some s)
  | _ => ([idMsg], [], none)

/-- The `name` check (lines 116-118). -/
def nameCheck (fields : List (String × Json)) : List String :=
  match fields.lookup "name" with
  | some (.str s) => if s.isEmpty then [nameMsg] else []
  | _ => [nameMsg]

/-- The `supplement` check (lines 120-122): string required, empty allowed. -/
def supplementCheck (fields : List (String × Json)) : List String :=
  match fields.lookup "supplement" with
  | some (.str _) => []
  | _ => [supplementMsg]

/-- The `description` check (lines 125-129): absent warns, non-string errors. -/
def descriptionCheck (fields : List (String × Json)) : List String × List String :=
  match fields.lookup "description" with
  | none => ([], [descriptionWarnMsg])
  | some (.str _) => ([], [])
  | some _ => ([descriptionErrMsg], [])

/-- The `category` check (lines 131-137): absent warns; present must be one
of `VALID_CATEGORIES` (`includes` is `false` on any non-string value). -/
def categoryCheck (fields : List (String × Json)) : List String × List String :=
  match fields.lookup "category" with
  | none => ([], [categoryWarnMsg])
  | some v =>
    match v with
    | .str c => if VALID_CATEGORIES.contains c then ([], []) else ([categoryErrMsg v], [])
    | _ => ([categoryErrMsg v], [])

/-- The per-element check of the `examples` loop body (lines 145-155): a
non-object element yields the shape error and skips its field checks;
otherwise `scenario` and `commands` each yield an error when not a string. -/
def exampleErrors (i : Nat) (ex : Json) : List String :=
  match ex with
  | .obj flds =>
    (match flds.lookup "scenario" with
     | some (.str _) => []
     | _ => [scenarioMsg i]) ++
    (match flds.lookup "commands" with
     | some (.str _) => []
     | _ => [commandsMsg i])
  | _ => [exampleShapeMsg i]

/-- The `examples` loop (lines 144-156) starting at index `i`. -/
def checkExamplesFrom (i : Nat) : List Json → List String
  | [] => []
  | ex :: rest => exampleErrors i ex ++ checkExamplesFrom (i + 1) rest

/-- The `examples` check (lines 139-157). -/
def examplesCheck (fields : List (String × Json)) : List String × List String :=
  match fields.lookup "examples" with
  | none => ([], [examplesWarnMsg])
  | some (.arr exs) => (checkExamplesFrom 0 exs, [])
  | some _ => ([examplesErrMsg], [])

/-- `knownFields` from the source. -/
def knownFields : List String :=
  ["id", "name", "description", "category", "supplement", "examples"]

/-- The unknown-key sweep (lines 160-165): one warning per key of the parsed
object outside `knownFields`, in key order. -/
def unknownFieldWarnings (fields : List (String × Json)) : List String :=
  ((fields.map Prod.fst).filter (fun k => !knownFields.contains k)).map unknownFieldMsg

/-- Steps 4-10 of `validateFile` on a parsed object: the errors and warnings
they push (in push order) and the extracted id. -/
def fieldChecks (filename : String) (fields : List (String × Json)) :
    List String × List String × Option String :=
  let idc := idCheck filename fields
  let desc := descriptionCheck fields
  let cat := categoryCheck fields
  let exs := examplesCheck fields
  (idc.1 ++ nameCheck fields ++ supplementCheck fields ++ desc.1 ++ cat.1 ++ exs.1,
   idc.2.1 ++ desc.2 ++ cat.2 ++ exs.2 ++ unknownFieldWarnings fields,
   idc.2.2)

/-- `validateFile(filename)` with the read-and-parse outcome made explicit.
Returns the counts' underlying lists, the extracted id and the printed
lines; `main` consumes `errors.length`, `warnings.length` and `id`. -/
def validateFile (filename : String) (content : Except String Json) : FileResult :=
  let header := "\nValidating strategies/" ++ filename
  let fnErrs := filenameErrors filename
  match content with
  | .error m =>
    let errors := fnErrs ++ [invalidJsonMsg m]
    ⟨errors, [], none, header :: printResults errors []⟩
  | .ok j =>
    match j with
    | .obj fields =>
      let fc := fieldChecks filename fields
      let errors := fnErrs ++ fc.1
      ⟨errors, fc.2.1, fc.2.2, header :: printResults errors fc.2.1⟩
    | _ =>
      let errors := fnErrs ++ [topLevelMsg]
      ⟨errors, [], none, header :: printResults errors []⟩

/-- The truthiness test `if (id)` of `main` (line 44) on the returned id:
`null` and `""` are falsy. -/
def idTruthy : Option String → Bool
  | some s => !s.isEmpty
  | none => false

/-- `idMap.get(id).push(file)` with `idMap.set(id, [])` on a missing key
(lines 45-46), on an insertion-ordered association list. -/
def insertId (m : List (String × List String)) (id fn : String) :
    List (String × List String) :=
  match m with
  | [] => [(id, [fn])]
  | (k, v) :: rest =>
    if k = id then (k, v ++ [fn]) :: rest else (k, v) :: insertId rest id fn

/-- The id under which `main`'s loop files a result, if any: `if (id)` is
false on `null` and on the empty string. -/
def extractedKey (p : String × FileResult) : Option String :=
  match p.2.id with
  | some s => if s.isEmpty then none else some s
  | none => none

/-- One iteration of the id-accumulation in `main`'s loop (lines 44-47). -/
def addToIdMap (m : List (String × List String)) (p : String × FileResult) :
    List (String × List String) :=
  match extractedKey p with
  | some s => insertId m s p.1
  | none => m

/-- The cross-file check of `main` (lines 50-63): the lines printed after
the `Cross-file checks:` header, and the number of duplicate-id errors
folded into `totalErrors`. -/
def crossFileCheck (idMap : List (String × List String)) : List String × Nat :=
  let dups := idMap.filter (fun p => decide (p.2.length > 1))
  if dups.length = 0 then
    (["  ok    All " ++ toString idMap.length ++ " strategy IDs are unique"], 0)
  else
    (dups.map (fun p =>
      "  FAIL  Duplicate id \"" ++ p.1 ++ "\" in: " ++ String.intercalate ", " p.2),
     dups.length)

/-- Lexicographic order on character lists (the default JS string
comparison, by code units). -/
def charListLe : List Char → List Char → Bool
  | [], _ => true
  | _ :: _, [] => false
  | a :: as, b :: bs =>
    if a = b then charListLe as bs else decide (a < b)

/-- String comparison used by `entries.sort()`. -/
def strLe (a b : String) : Bool := charListLe a.toList b.toList

/-- Insert into a sorted list of strings, keeping order (helper of the
`entries.sort()` model). -/
def insertSorted (a : String) : List String → List String
  | [] => [a]
  | b :: rest => if strLe a b then a :: b :: rest else b :: insertSorted a rest

/-- `Array.prototype.sort()` with the default string comparator, modelled
as a stable insertion sort by the string order. -/
def sortStrings : List String → List String
  | [] => []
  | a :: rest => insertSorted a (sortStrings rest)

/-- `files`: the directory entries ending in `.json`, sorted (JS
`Array.prototype.sort` default order; code-unit order coincides with the
string order used here on these names). -/
def discover (entries : List String) : List String :=
  sortStrings (entries.filter (fun f => endsWithJson f))

/-- The observable outcome of one run of `main`: the discovered files, each
file's `validateFile` result, the accumulated counters, the id map, the
cross-file results and the process exit code.  `fatalOutput` holds the
`console.error` message of the zero-files early exit. -/
structure RunResult where
  files : List String
  results : List (String × FileResult)
  totalErrors : Nat
  totalWarnings : Nat
  passedFiles : Nat
  idMap : List (String × List String)
  duplicates : Nat
  crossOutput : List String
  exitCode : Nat
  fatalOutput : List String
deriving Repr, DecidableEq

/-- The body of `main` after the zero-files guard (lines 32-70): the
per-file loop, the cross-file checks, the summary counters and the final
`process.exit(totalErrors > 0 ? 1 : 0)`. -/
def runBody (files : List String) (read : String → Except String Json) : RunResult :=
  let results := files.map (fun f => (f, validateFile f (read f)))
  let totalErrors0 := (results.map (fun p => p.2.errors.length)).sum
  let totalWarnings := (results.map (fun p => p.2.warnings.length)).sum
  let passedFiles := (results.filter (fun p => p.2.errors.isEmpty)).length
  let idMap := results.foldl addToIdMap []
  let cross := crossFileCheck idMap
  let totalErrors := totalErrors0 + cross.2
  ⟨files, results, totalErrors, totalWarnings, passedFiles, idMap, cross.2,
    "\nCross-file checks:" :: cross.1,
    if totalErrors > 0 then 1 else 0, []⟩

/-- `main()`, with the directory listing and the per-file read-and-parse
outcomes supplied as arguments (the only I/O the program performs). -/
def runMain (entries : List String) (read : String → Except String Json) : RunResult :=
  let files := discover entries
  if files.isEmpty then
    ⟨files, [], 0, 0, 0, [], 0, [], 1, ["No .json files found in strategies/"]⟩
  else
    runBody files read

/-- The claim's description of a document whose non-`id` recognized fields
all have the correct type: non-empty string `name`, string `supplement`,
string `description`, `category` in the enumerated set, `examples` a
sequence of records with string `scenario` and string `commands`, and no
keys outside the recognized set. -/
def FieldShapeOk (fields : List (String × Json)) : Prop :=
  (∃ s, fields.lookup "name" = some (.str s) ∧ s ≠ "") ∧
  (∃ s, fields.lookup "supplement" = some (.str s)) ∧
  (∃ s, fields.lookup "description" = some (.str s)) ∧
  (∃ c, fields.lookup "category" = some (.str c) ∧ c ∈ VALID_CATEGORIES) ∧
  (∃ exs, fields.lookup "examples" = some (.arr exs) ∧
    ∀ ex ∈ exs, ∃ flds, ex = .obj flds ∧
      (∃ s, flds.lookup "scenario" = some (.str s)) ∧
      (∃ s, flds.lookup "commands" = some (.str s))) ∧
  (∀ k ∈ fields.map Prod.fst, k ∈ knownFields)

/-- The claim's description of a fully valid document for filename `f`:
a record with every recognized field correctly typed, a non-empty `id`
equal to the filename stem, and a filename matching the convention. -/
def ValidDoc (f : String) (j : Json) : Prop :=
  ∃ fields, j = .obj fields ∧ filenameMatches f = true ∧ stemOf f ≠ "" ∧
    fields.lookup "id" = some (.str (stemOf f)) ∧ FieldShapeOk fields

/-! ### Helper lemmas -/

theorem lookup_cons_ne {β : Type} (a k : String) (v : β) (tl : List (String × β))
    (h : a ≠ k) : List.lookup a ((k, v) :: tl) = List.lookup a tl := by
  have hb : (a == k) = false := by simp [h]
  simp [List.lookup, hb]

theorem lookup_cons_eq {β : Type} (k : String) (v : β) (tl : List (String × β)) :
    List.lookup k ((k, v) :: tl) = some v := by
  simp [List.lookup]

theorem insertId_lookup_same (m : List (String × List String)) (id fn : String) :
    (insertId m id fn).lookup id = some (((m.lookup id).getD []) ++ [fn]) := by
  induction m with
  | nil => simp [insertId, List.lookup]
  | cons hd tl ih =>
    obtain ⟨k, v⟩ := hd
    by_cases hk : k = id
    · subst hk; simp [insertId, lookup_cons_eq]
    · rw [insertId, if_neg hk, lookup_cons_ne _ _ _ _ (Ne.symm hk),
        lookup_cons_ne _ _ _ _ (Ne.symm hk), ih]

theorem insertId_lookup_ne (m : List (String × List String)) (id fn k : String)
    (h : k ≠ id) : (insertId m id fn).lookup k = m.lookup k := by
  induction m with
  | nil =>
    show List.lookup k [(id, [fn])] = List.lookup k []
    rw [lookup_cons_ne _ _ _ _ h]
  | cons hd tl ih =>
    obtain ⟨k', v⟩ := hd
    by_cases hk : k' = id
    · subst hk
      rw [insertId, if_pos rfl, lookup_cons_ne _ _ _ _ h, lookup_cons_ne _ _ _ _ h]
    · by_cases hk2 : k = k'
      · subst hk2; rw [insertId, if_neg hk, lookup_cons_eq, lookup_cons_eq]
      · rw [insertId, if_neg hk, lookup_cons_ne _ _ _ _ hk2, lookup_cons_ne _ _ _ _ hk2, ih]

theorem foldl_addToIdMap_lookup_len (rs : List (String × FileResult)) :
    ∀ (m : List (String × List String)) (k : String),
      (((rs.foldl addToIdMap m).lookup k).getD []).length
        = ((m.lookup k).getD []).length + (rs.filterMap extractedKey).count k := by
  induction rs with
  | nil => intro m k; simp
  | cons p rest ih =>
    intro m k
    rw [List.foldl_cons, ih]
    cases hp : extractedKey p with
    | none => simp [addToIdMap, hp]
    | some s =>
      rw [List.filterMap_cons_some hp, List.count_cons]
      by_cases hk : s = k
      · subst hk
        simp [addToIdMap, hp, insertId_lookup_same]
        omega
      · simp [addToIdMap, hp, insertId_lookup_ne _ _ _ _ (Ne.symm hk), hk]

theorem insertId_keys (m : List (String × List String)) (id fn : String) :
    (insertId m id fn).map Prod.fst =
      if id ∈ m.map Prod.fst then m.map Prod.fst else m.map Prod.fst ++ [id] := by
  induction m with
  | nil => simp [insertId]
  | cons hd tl ih =>
    obtain ⟨k, v⟩ := hd
    by_cases hk : k = id
    · subst hk; simp [insertId]
    · simp only [insertId, if_neg hk, List.map_cons, List.mem_cons, ih]
      by_cases hmem : id ∈ tl.map Prod.fst
      · simp [hmem, Ne.symm hk]
      · simp [hmem, Ne.symm hk]

theorem insertId_keys_nodup (m : List (String × List String)) (id fn : String)
    (h : (m.map Prod.fst).Nodup) : ((insertId m id fn).map Prod.fst).Nodup := by
  rw [insertId_keys]
  by_cases hmem : id ∈ m.map Prod.fst
  · simpa [hmem]
  · simp [hmem, List.nodup_append, h]

theorem foldl_addToIdMap_keys_nodup (rs : List (String × FileResult)) :
    ∀ (m : List (String × List String)), (m.map Prod.fst).Nodup →
      ((rs.foldl addToIdMap m).map Prod.fst).Nodup := by
  induction rs with
  | nil => intro m h; simpa
  | cons p rest ih =>
    intro m h
    rw [List.foldl_cons]
    apply ih
    cases hp : extractedKey p with
    | none => simpa [addToIdMap, hp]
    | some s => simpa [addToIdMap, hp] using insertId_keys_nodup m s p.1 h

theorem lookup_of_nodup_mem (m : List (String × List String))
    (p : String × List String) (hnd : (m.map Prod.fst).Nodup) (hp : p ∈ m) :
    m.lookup p.1 = some p.2 := by
  induction m with
  | nil => cases hp
  | cons hd tl ih =>
    obtain ⟨k, v⟩ := hd
    simp only [List.map_cons, List.nodup_cons] at hnd
    rcases List.mem_cons.mp hp with h | h
    · subst h; exact lookup_cons_eq _ _ _
    · have hk : p.1 ≠ k := by
        intro he
        exact hnd.1 (he ▸ List.mem_map_of_mem Prod.fst h)
      rw [lookup_cons_ne _ _ _ _ hk]
      exact ih hnd.2 h

theorem insertId_mem_self (m : List (String × List String)) (id fn : String) :
    ∃ p ∈ insertId m id fn, p.1 = id ∧ fn ∈ p.2 := by
  induction m with
  | nil => exact ⟨(id, [fn]), by simp [insertId]⟩
  | cons hd tl ih =>
    obtain ⟨k, v⟩ := hd
    by_cases hk : k = id
    · subst hk
      exact ⟨(k, v ++ [fn]), by simp [insertId], rfl, by simp⟩
    · obtain ⟨p, hp, h1, h2⟩ := ih
      exact ⟨p, by simp only [insertId, if_neg hk]; exact List.mem_cons_of_mem _ hp, h1, h2⟩

theorem insertId_mem_mono (m : List (String × List String))
    (p : String × List String) (fn id' fn' : String) (hp : p ∈ m) (hfn : fn ∈ p.2) :
    ∃ q ∈ insertId m id' fn', q.1 = p.1 ∧ fn ∈ q.2 := by
  induction m with
  | nil => cases hp
  | cons hd tl ih =>
    obtain ⟨k, v⟩ := hd
    rcases List.mem_cons.mp hp with h | h
    · subst h
      by_cases hk : k = id'
      · subst hk
        exact ⟨(k, v ++ [fn']), by simp [insertId], rfl, List.mem_append_left _ hfn⟩
      · exact ⟨(k, v), by simp only [insertId, if_neg hk]; exact List.mem_cons_self _ _,
          rfl, hfn⟩
    · by_cases hk : k = id'
      · subst hk
        exact ⟨p, by simp only [insertId, if_pos rfl]; exact List.mem_cons_of_mem _ h,
          rfl, hfn⟩
      · obtain ⟨q, hq, h1, h2⟩ := ih h
        exact ⟨q, by simp only [insertId, if_neg hk]; exact List.mem_cons_of_mem _ hq,
          h1, h2⟩

theorem foldl_mem_mono (rs : List (String × FileResult)) :
    ∀ (m : List (String × List String)) (p : String × List String) (fn : String),
      p ∈ m → fn ∈ p.2 → ∃ q ∈ rs.foldl addToIdMap m, q.1 = p.1 ∧ fn ∈ q.2 := by
  induction rs with
  | nil => intro m p fn hp hfn; exact ⟨p, hp, rfl, hfn⟩
  | cons r rest ih =>
    intro m p fn hp hfn
    rw [List.foldl_cons]
    cases hr : extractedKey r with
    | none =>
      exact ih _ p fn (by simpa [addToIdMap, hr] using hp) hfn
    | some s =>
      obtain ⟨q, hq, h1, h2⟩ := insertId_mem_mono m p fn s r.1 hp hfn
      have hq2 : q ∈ addToIdMap m r := by simpa [addToIdMap, hr] using hq
      obtain ⟨q', hq', h1', h2'⟩ := ih (addToIdMap m r) q fn hq2 h2
      exact ⟨q', hq', h1'.trans h1, h2'⟩

theorem mem_idMap_of_mem (rs : List (String × FileResult)) :
    ∀ (m : List (String × List String)) (fn : String) (r : FileResult) (s : String),
      (fn, r) ∈ rs → r.id = some s → s ≠ "" →
      ∃ p ∈ rs.foldl addToIdMap m, p.1 = s ∧ fn ∈ p.2 := by
  induction rs with
  | nil => intro m fn r s h _ _; cases h
  | cons q rest ih =>
    intro m fn r s hmem hid hs
    rw [List.foldl_cons]
    rcases List.mem_cons.mp hmem with h | h
    · have hkey : extractedKey q = some s := by
        rw [← h]; simp [extractedKey, hid, String.isEmpty_iff, hs]
      have hstep : addToIdMap m q = insertId m s q.1 := by
        rw [addToIdMap, hkey]
      have hfst : q.1 = fn := by rw [← h]
      obtain ⟨p, hp, h1, h2⟩ := insertId_mem_self m s q.1
      obtain ⟨p', hp', h1', h2'⟩ :=
        foldl_mem_mono rest (addToIdMap m q) p fn (hstep ▸ hp) (hfst ▸ h2)
      exact ⟨p', hp', h1'.trans h1, h2'⟩
    · exact ih (addToIdMap m q) fn r s h hid hs

theorem insertId_mem_src (m : List (String × List String)) (id fn' : String) :
    ∀ p ∈ insertId m id fn', ∀ fn, fn ∈ p.2 → fn = fn' ∨ ∃ q ∈ m, fn ∈ q.2 := by
  induction m with
  | nil =>
    intro p hp fn hfn
    simp only [insertId, List.mem_singleton] at hp
    subst hp
    simp only [List.mem_singleton] at hfn
    exact Or.inl hfn
  | cons hd tl ih =>
    obtain ⟨k, v⟩ := hd
    intro p hp fn hfn
    by_cases hk : k = id
    · subst hk
      simp only [insertId, if_pos rfl] at hp
      rcases List.mem_cons.mp hp with h | h
      · subst h
        rcases List.mem_append.mp hfn with h2 | h2
        · exact Or.inr ⟨(k, v), List.mem_cons_self _ _, h2⟩
        · simp only [List.mem_singleton] at h2
          exact Or.inl h2
      · exact Or.inr ⟨p, List.mem_cons_of_mem _ h, hfn⟩
    · simp only [insertId, if_neg hk] at hp
      rcases List.mem_cons.mp hp with h | h
      · subst h
        exact Or.inr ⟨(k, v), List.mem_cons_self _ _, hfn⟩
      · rcases ih p h fn hfn with h2 | ⟨q, hq, hq2⟩
        · exact Or.inl h2
        · exact Or.inr ⟨q, List.mem_cons_of_mem _ hq, hq2⟩

theorem idTruthy_of_extractedKey (p : String × FileResult) (s : String)
    (h : extractedKey p = some s) : idTruthy p.2.id = true := by
  cases hid : p.2.id with
  | none => rw [extractedKey, hid] at h; exact Option.noConfusion h
  | some t =>
    rw [extractedKey, hid] at h
    by_cases ht : t.isEmpty
    · simp only [ht, if_pos] at h
      exact Option.noConfusion h
    · simp [idTruthy, hid, ht]

theorem idMap_filenames_src (rs : List (String × FileResult)) :
    ∀ (m : List (String × List String)) (p : String × List String),
      p ∈ rs.foldl addToIdMap m → ∀ fn, fn ∈ p.2 →
      (∃ q ∈ m, fn ∈ q.2) ∨ ∃ r ∈ rs, r.1 = fn ∧ idTruthy r.2.id = true := by
  induction rs with
  | nil => intro m p hp fn hfn; exact Or.inl ⟨p, hp, hfn⟩
  | cons r rest ih =>
    intro m p hp fn hfn
    rw [List.foldl_cons] at hp
    rcases ih (addToIdMap m r) p hp fn hfn with ⟨q, hq, hfq⟩ | ⟨r', hr', h1, h2⟩
    · cases hk : extractedKey r with
      | none =>
        rw [addToIdMap, hk] at hq
        exact Or.inl ⟨q, hq, hfq⟩
      | some s =>
        have hq2 : q ∈ insertId m s r.1 := by rw [addToIdMap, hk] at hq; exact hq
        rcases insertId_mem_src m s r.1 q hq2 fn hfq with h | ⟨q', hq', hfq'⟩
        · exact Or.inr ⟨r, List.mem_cons_self _ _, h.symm, idTruthy_of_extractedKey r s hk⟩
        · exact Or.inl ⟨q', hq', hfq'⟩
    · exact Or.inr ⟨r', List.mem_cons_of_mem _ hr', h1, h2⟩

theorem checkExamplesFrom_eq_flatMap (exs : List Json) : ∀ i,
    checkExamplesFrom i exs = (exs.enumFrom i).flatMap fun p => exampleErrors p.1 p.2 := by
  induction exs with
  | nil => intro i; rfl
  | cons ex rest ih =>
    intro i
    rw [checkExamplesFrom, List.enumFrom_cons, List.flatMap_cons, ih]

theorem checkExamplesFrom_nil_of_good (exs : List Json)
    (h : ∀ ex ∈ exs, ∃ flds, ex = .obj flds ∧
      (∃ s, flds.lookup "scenario" = some (.str s)) ∧
      (∃ s, flds.lookup "commands" = some (.str s))) :
    ∀ i, checkExamplesFrom i exs = [] := by
  induction exs with
  | nil => intro i; rfl
  | cons ex rest ih =>
    intro i
    obtain ⟨flds, he, ⟨s1, hs1⟩, ⟨s2, hs2⟩⟩ := h ex (List.mem_cons_self _ _)
    rw [checkExamplesFrom, ih (fun e he2 => h e (List.mem_cons_of_mem _ he2))]
    subst he
    rw [exampleErrors, hs1, hs2]
    rfl

theorem filterMap_eq_map_of (l : List String) (g : String → Option String)
    (f : String → String) (h : ∀ x ∈ l, g x = some (f x)) :
    l.filterMap g = l.map f := by
  induction l with
  | nil => rfl
  | cons a rest ih =>
    rw [List.map_cons, List.filterMap_cons_some (h a (List.mem_cons_self _ _)),
      ih (fun x hx => h x (List.mem_cons_of_mem _ hx))]

theorem sum_eq_zero_of_all_zero (l : List Nat) (h : ∀ x ∈ l, x = 0) : l.sum = 0 := by
  induction l with
  | nil => rfl
  | cons a rest ih =>
    rw [List.sum_cons, h a (List.mem_cons_self _ _),
      ih (fun x hx => h x (List.mem_cons_of_mem _ hx))]

theorem validateFile_error_eq (f m : String) :
    validateFile f (.error m) =
      ⟨filenameErrors f ++ [invalidJsonMsg m], [], none,
        ("\nValidating strategies/" ++ f) ::
          printResults (filenameErrors f ++ [invalidJsonMsg m]) []⟩ := rfl

theorem validateFile_obj_eq (f : String) (fields : List (String × Json)) :
    validateFile f (.ok (.obj fields)) =
      ⟨filenameErrors f ++ (fieldChecks f fields).1, (fieldChecks f fields).2.1,
        (fieldChecks f fields).2.2,
        ("\nValidating strategies/" ++ f) ::
          printResults (filenameErrors f ++ (fieldChecks f fields).1)
            (fieldChecks f fields).2.1⟩ := rfl

theorem validateFile_nonobj_eq (f : String) (j : Json)
    (h : ∀ fields, j ≠ .obj fields) :
    validateFile f (.ok j) =
      ⟨filenameErrors f ++ [topLevelMsg], [], none,
        ("\nValidating strategies/" ++ f) ::
          printResults (filenameErrors f ++ [topLevelMsg]) []⟩ := by
  cases j with
  | obj fields => exact absurd rfl (h fields)
  | null => rfl
  | bool b => rfl
  | num n => rfl
  | str s => rfl
  | arr elems => rfl

theorem shapeChecks_nil (fields : List (String × Json)) (h : FieldShapeOk fields) :
    nameCheck fields = [] ∧ supplementCheck fields = [] ∧
    descriptionCheck fields = ([], []) ∧ categoryCheck fields = ([], []) ∧
    examplesCheck fields = ([], []) ∧ unknownFieldWarnings fields = [] := by
  obtain ⟨⟨nm, hnm, hnm2⟩, ⟨sup, hsup⟩, ⟨d, hd⟩, ⟨c, hc, hc2⟩, ⟨exs, hexs, hgood⟩, hkeys⟩ := h
  have hname : nameCheck fields = [] := by
    unfold nameCheck
    rw [hnm]
    simp [String.isEmpty_iff, hnm2]
  have hsupc : supplementCheck fields = [] := by
    unfold supplementCheck
    rw [hsup]
  have hdesc : descriptionCheck fields = ([], []) := by
    unfold descriptionCheck
    rw [hd]
  have hcont : VALID_CATEGORIES.contains c = true := by
    simp only [VALID_CATEGORIES, List.mem_cons, List.not_mem_nil, or_false] at hc2
    rcases hc2 with rfl | rfl | rfl | rfl <;> decide
  have hcat : categoryCheck fields = ([], []) := by
    unfold categoryCheck
    rw [hc]
    simp [hc2]
  have hexc : examplesCheck fields = ([], []) := by
    unfold examplesCheck
    rw [hexs]
    show (checkExamplesFrom 0 exs, ([] : List String)) = ([], [])
    rw [checkExamplesFrom_nil_of_good exs hgood 0]
  have hunk : unknownFieldWarnings fields = [] := by
    unfold unknownFieldWarnings
    have hfil : (fields.map Prod.fst).filter (fun k => !knownFields.contains k) = [] := by
      rw [List.filter_eq_nil_iff]
      intro k hk
      have hkk := hkeys k hk
      simp only [knownFields, List.mem_cons, List.not_mem_nil, or_false] at hkk
      rcases hkk with rfl | rfl | rfl | rfl | rfl | rfl <;> decide
    rw [hfil]
    rfl
  exact ⟨hname, hsupc, hdesc, hcat, hexc, hunk⟩

theorem validateFile_of_validDoc (f : String) (j : Json) (h : ValidDoc f j) :
    validateFile f (.ok j) =
      ⟨[], [], some (stemOf f), ["\nValidating strategies/" ++ f, "  ok"]⟩ := by
  obtain ⟨fields, hj, hfn, hstem, hid, hsh⟩ := h
  subst hj
  obtain ⟨hname, hsupc, hdesc, hcat, hexc, hunk⟩ := shapeChecks_nil fields hsh
  have hfe : filenameErrors f = [] := by rw [filenameErrors, if_pos hfn]
  have hidc : idCheck f fields = ([], [], some (stemOf f)) := by
    unfold idCheck
    rw [hid]
    simp [String.isEmpty_iff, hstem]
  have hfc : fieldChecks f fields = ([], [], some (stemOf f)) := by
    unfold fieldChecks
    rw [hidc, hname, hsupc, hdesc, hcat, hexc, hunk]
    simp
  rw [validateFile_obj_eq, hfc, hfe]
  rfl

theorem runMain_empty_eq (entries : List String) (read : String → Except String Json)
    (h : discover entries = []) :
    runMain entries read =
      ⟨[], [], 0, 0, 0, [], 0, [], 1, ["No .json files found in strategies/"]⟩ := by
  unfold runMain
  rw [h]
  rfl

theorem runMain_nonempty_eq (entries : List String) (read : String → Except String Json)
    (h : discover entries ≠ []) :
    runMain entries read = runBody (discover entries) read := by
  unfold runMain
  have hne : (discover entries).isEmpty = false := by simpa [List.isEmpty_iff] using h
  simp [hne]

theorem runBody_results (files : List String) (read : String → Except String Json) :
    (runBody files read).results = files.map (fun f => (f, validateFile f (read f))) := rfl

theorem runBody_idMap (files : List String) (read : String → Except String Json) :
    (runBody files read).idMap = (runBody files read).results.foldl addToIdMap [] := rfl

theorem runBody_duplicates (files : List String) (read : String → Except String Json) :
    (runBody files read).duplicates = (crossFileCheck (runBody files read).idMap).2 := rfl

theorem runBody_crossOutput (files : List String) (read : String → Except String Json) :
    (runBody files read).crossOutput =
      "\nCross-file checks:" :: (crossFileCheck (runBody files read).idMap).1 := rfl

theorem runBody_totalErrors (files : List String) (read : String → Except String Json) :
    (runBody files read).totalErrors =
      ((runBody files read).results.map (fun p => p.2.errors.length)).sum
        + (runBody files read).duplicates := rfl

theorem runBody_totalWarnings (files : List String) (read : String → Except String Json) :
    (runBody files read).totalWarnings =
      ((runBody files read).results.map (fun p => p.2.warnings.length)).sum := rfl

theorem runBody_exitCode (files : List String) (read : String → Except String Json) :
    (runBody files read).exitCode =
      if (runBody files read).totalErrors > 0 then 1 else 0 := rfl

theorem runBody_fatalOutput (files : List String) (read : String → Except String Json) :
    (runBody files read).fatalOutput = [] := rfl

/-! ### Claim theorems -/

/-- C2: a document whose raw content fails to read or parse gets exactly one
error describing the parse failure (appended to whatever the filename step
already recorded), no warnings, no field-level checks, and a null extracted
id; a document parsing to a non-record value likewise gets exactly the
top-level-shape error and returns immediately with a null id. -/
theorem C2_structural_short_circuit :
    (∀ (f m : String),
      (validateFile f (Except.error m)).errors = filenameErrors f ++ [invalidJsonMsg m] ∧
      (validateFile f (Except.error m)).warnings = [] ∧
      (validateFile f (Except.error m)).id = none) ∧
    (∀ (f : String) (j : Json), (∀ fields, j ≠ Json.obj fields) →
      (validateFile f (Except.ok j)).errors = filenameErrors f ++ [topLevelMsg] ∧
      (validateFile f (Except.ok j)).warnings = [] ∧
      (validateFile f (Except.ok j)).id = none) := by
  constructor
  · intro f m
    rw [validateFile_error_eq]
    exact ⟨rfl, rfl, rfl⟩
  · intro f j hj
    rw [validateFile_nonobj_eq f j hj]
    exact ⟨rfl, rfl, rfl⟩

/-- Witness for C2 at a concrete unparseable document and a concrete
top-level array. -/
theorem C2_structural_short_circuit_witness :
    ((validateFile "alpha.json" (Except.error "boom")).errors
        = filenameErrors "alpha.json" ++ [invalidJsonMsg "boom"] ∧
      (validateFile "alpha.json" (Except.error "boom")).warnings = [] ∧
      (validateFile "alpha.json" (Except.error "boom")).id = none) ∧
    ((validateFile "alpha.json" (Except.ok (Json.arr []))).errors
        = filenameErrors "alpha.json" ++ [topLevelMsg] ∧
      (validateFile "alpha.json" (Except.ok (Json.arr []))).warnings = [] ∧
      (validateFile "alpha.json" (Except.ok (Json.arr []))).id = none) :=
  ⟨C2_structural_short_circuit.1 "alpha.json" "boom",
   C2_structural_short_circuit.2 "alpha.json" (Json.arr [])
     (fun _ h => Json.noConfusion h)⟩

/-- C8: when the directory listing has no entry with the `.json` extension,
the run reports the fatal message, exits with status 1, validates no file
and prints no per-file or cross-file section. -/
theorem C8_empty_directory (entries : List String) (read : String → Except String Json)
    (h : discover entries = []) :
    runMain entries read =
      ⟨[], [], 0, 0, 0, [], 0, [], 1, ["No .json files found in strategies/"]⟩ :=
  runMain_empty_eq entries read h

/-- Witness for C8 at a concrete empty listing. -/
theorem C8_empty_directory_witness :
    discover ([] : List String) = [] ∧
    runMain [] (fun _ => Except.error "e") =
      ⟨[], [], 0, 0, 0, [], 0, [], 1, ["No .json files found in strategies/"]⟩ :=
  ⟨rfl, C8_empty_directory [] (fun _ => Except.error "e") rfl⟩

/-- C9, counterexample: the claim says `validateFile` performs no printing,
but it prints its per-file header (and diagnostic lines) itself: on a
concrete input its console output is nonempty. -/
theorem C9_counterexample :
    (validateFile "alpha.json" (Except.ok (Json.obj []))).output ≠ [] := by
  rw [validateFile_obj_eq]
  exact List.cons_ne_nil _ _

/-- C9, amended: `validateFile`'s only side effect is printing its own
per-file report: the header line naming the file followed by exactly what
`printResults` prints for its error and warning lists; beyond that it only
returns its diagnostics. -/
theorem C9_prints_own_report (f : String) (c : Except String Json) :
    (validateFile f c).output =
      ("\nValidating strategies/" ++ f) ::
        printResults (validateFile f c).errors (validateFile f c).warnings := by
  cases c with
  | error m => rfl
  | ok j => cases j <;> rfl

/-- C6: a present non-sequence `examples` field yields the array error;
when it is a sequence, the elements are checked independently by position
(the loop's errors are the concatenation of per-element errors tagged with
their zero-based index): a non-record element yields exactly the one shape
error for its index and its field checks are skipped, and a record element
whose `scenario` is a string but whose `commands` is absent yields exactly
the one `commands` error for its index. -/
theorem C6_examples_validation :
    (∀ (f : String) (fields : List (String × Json)) (v : Json),
      fields.lookup "examples" = some v → (∀ exs, v ≠ Json.arr exs) →
      examplesCheck fields = ([examplesErrMsg], []) ∧
      examplesErrMsg ∈ (validateFile f (Except.ok (Json.obj fields))).errors) ∧
    (∀ (i : Nat) (exs : List Json),
      checkExamplesFrom i exs =
        (exs.enumFrom i).flatMap fun p => exampleErrors p.1 p.2) ∧
    (∀ (i : Nat) (ex : Json), (∀ flds, ex ≠ Json.obj flds) →
      exampleErrors i ex = [exampleShapeMsg i]) ∧
    (∀ (i : Nat) (flds : List (String × Json)),
      (∃ s, flds.lookup "scenario" = some (Json.str s)) →
      flds.lookup "commands" = none →
      exampleErrors i (Json.obj flds) = [commandsMsg i]) ∧
    (∀ (f : String) (fields : List (String × Json)) (exs : List Json),
      fields.lookup "examples" = some (Json.arr exs) →
      ∃ pre, (validateFile f (Except.ok (Json.obj fields))).errors
        = pre ++ checkExamplesFrom 0 exs) := by
  refine ⟨?_, ?_, ?_, ?_, ?_⟩
  · intro f fields v hv hnv
    have hec : examplesCheck fields = ([examplesErrMsg], []) := by
      unfold examplesCheck
      rw [hv]
      cases v with
      | arr exs => exact absurd rfl (hnv exs)
      | null => rfl
      | bool b => rfl
      | num n => rfl
      | str s => rfl
      | obj o => rfl
    refine ⟨hec, ?_⟩
    rw [validateFile_obj_eq]
    show examplesErrMsg ∈ filenameErrors f ++ (fieldChecks f fields).1
    apply List.mem_append_right
    simp [fieldChecks, hec]
  · intro i exs
    exact checkExamplesFrom_eq_flatMap exs i
  · intro i ex hex
    cases ex with
    | obj flds => exact absurd rfl (hex flds)
    | null => rfl
    | bool b => rfl
    | num n => rfl
    | str s => rfl
    | arr elems => rfl
  · intro i flds hsc hcm
    obtain ⟨s, hs⟩ := hsc
    rw [exampleErrors, hs, hcm]
    rfl
  · intro f fields exs hexs
    have hec : examplesCheck fields = (checkExamplesFrom 0 exs, []) := by
      unfold examplesCheck
      rw [hexs]
    rw [validateFile_obj_eq]
    refine ⟨filenameErrors f ++ (idCheck f fields).1 ++ nameCheck fields ++
      supplementCheck fields ++ (descriptionCheck fields).1 ++
      (categoryCheck fields).1, ?_⟩
    show filenameErrors f ++ (fieldChecks f fields).1 = _
    simp [fieldChecks, hec]

/-- Witness for C6 at a concrete non-array `examples`, a concrete
non-record element and a concrete element missing only `commands`. -/
theorem C6_examples_validation_witness :
    (examplesCheck [("examples", Json.num 3)] = ([examplesErrMsg], []) ∧
      examplesErrMsg ∈
        (validateFile "alpha.json"
          (Except.ok (Json.obj [("examples", Json.num 3)]))).errors) ∧
    checkExamplesFrom 0 [Json.num 7] =
      ([Json.num 7].enumFrom 0).flatMap (fun p => exampleErrors p.1 p.2) ∧
    exampleErrors 0 (Json.num 7) = [exampleShapeMsg 0] ∧
    exampleErrors 1 (Json.obj [("scenario", Json.str "s")]) = [commandsMsg 1] := by
  refine ⟨?_, ?_, ?_, ?_⟩
  · exact C6_examples_validation.1 "alpha.json" [("examples", Json.num 3)] (Json.num 3)
      rfl (fun _ h => Json.noConfusion h)
  · exact C6_examples_validation.2.1 0 [Json.num 7]
  · exact C6_examples_validation.2.2.1 0 (Json.num 7) (fun _ h => Json.noConfusion h)
  · exact C6_examples_validation.2.2.2.1 1 [("scenario", Json.str "s")] ⟨"s", rfl⟩ rfl

/-- C3: the cross-file check emits exactly one error line per identifier
mapped to more than one filename (naming the identifier and the offending
filenames comma-joined in discovery order) and counts exactly those as
errors; with no duplicated identifier it emits exactly one informational
line stating the count of distinct identifiers and contributes zero errors,
and the run's warning total never includes cross-file output. -/
theorem C3_cross_file_diagnostics :
    (∀ idMap : List (String × List String),
      (crossFileCheck idMap).2
          = (idMap.filter (fun p => decide (p.2.length > 1))).length ∧
      (idMap.filter (fun p => decide (p.2.length > 1)) ≠ [] →
        (crossFileCheck idMap).1
          = (idMap.filter (fun p => decide (p.2.length > 1))).map
              (fun p => "  FAIL  Duplicate id \"" ++ p.1 ++ "\" in: "
                ++ String.intercalate ", " p.2)) ∧
      (idMap.filter (fun p => decide (p.2.length > 1)) = [] →
        crossFileCheck idMap
          = (["  ok    All " ++ toString idMap.length ++ " strategy IDs are unique"], 0))) ∧
    (∀ (files : List String) (read : String → Except String Json),
      (runBody files read).duplicates = (crossFileCheck (runBody files read).idMap).2 ∧
      (runBody files read).crossOutput
        = "\nCross-file checks:" :: (crossFileCheck (runBody files read).idMap).1 ∧
      (runBody files read).totalWarnings
        = ((runBody files read).results.map (fun p => p.2.warnings.length)).sum) := by
  constructor
  · intro idMap
    by_cases hd : idMap.filter (fun p => decide (p.2.length > 1)) = []
    · refine ⟨?_, fun hne => absurd hd hne, fun _ => ?_⟩
      · rw [crossFileCheck, hd]
        rfl
      · rw [crossFileCheck, hd]
        rfl
    · have hlen : (idMap.filter (fun p => decide (p.2.length > 1))).length ≠ 0 := by
        simpa [List.length_eq_zero] using hd
      refine ⟨?_, fun _ => ?_, fun he => absurd he hd⟩
      · rw [crossFileCheck]
        simp only [if_neg hlen]
      · rw [crossFileCheck]
        simp only [if_neg hlen]
  · intro files read
    exact ⟨runBody_duplicates files read, runBody_crossOutput files read,
      runBody_totalWarnings files read⟩

/-- Witness for C3 at a concrete duplicated map, a concrete duplicate-free
map, and a concrete run. -/
theorem C3_cross_file_diagnostics_witness :
    (crossFileCheck [("a", ["a.json", "b.json"])]).1
      = ([("a", ["a.json", "b.json"])].filter (fun p => decide (p.2.length > 1))).map
          (fun p => "  FAIL  Duplicate id \"" ++ p.1 ++ "\" in: "
            ++ String.intercalate ", " p.2) ∧
    crossFileCheck [("a", ["a.json"])]
      = (["  ok    All " ++ toString [("a", ["a.json"])].length
          ++ " strategy IDs are unique"], 0) ∧
    (runBody ["a.json"] (fun _ => Except.error "boom")).duplicates
      = (crossFileCheck (runBody ["a.json"] (fun _ => Except.error "boom")).idMap).2 :=
  ⟨(C3_cross_file_diagnostics.1 [("a", ["a.json", "b.json"])]).2.1 (by decide),
   (C3_cross_file_diagnostics.1 [("a", ["a.json"])]).2.2 (by decide),
   (C3_cross_file_diagnostics.2 ["a.json"] (fun _ => Except.error "boom")).1⟩

/-- C4: a present non-empty string `id` is extracted literally regardless of
the filename stem: the id step records no error, records exactly the
mismatch warning when the value differs from the stem, and still sets the
extracted id; an absent, wrong-typed or empty `id` records the id error and
extracts nothing; and every file whose result carries a non-empty id is
filed in the identifier map under that literal value, so it participates in
duplicate detection. -/
theorem C4_id_extraction :
    (∀ (f : String) (fields : List (String × Json)) (s : String),
      fields.lookup "id" = some (Json.str s) → s ≠ "" →
      (validateFile f (Except.ok (Json.obj fields))).id = some s ∧
      idCheck f fields
        = ([], if s = stemOf f then [] else [idMismatchMsg s (stemOf f)], some s) ∧
      (s ≠ stemOf f →
        idMismatchMsg s (stemOf f)
          ∈ (validateFile f (Except.ok (Json.obj fields))).warnings)) ∧
    (∀ (f : String) (fields : List (String × Json)),
      (∀ s, fields.lookup "id" = some (Json.str s) → s = "") →
      (validateFile f (Except.ok (Json.obj fields))).id = none ∧
      idCheck f fields = ([idMsg], [], none)) ∧
    (∀ (rs : List (String × FileResult)) (fn : String) (r : FileResult) (s : String),
      (fn, r) ∈ rs → r.id = some s → s ≠ "" →
      ∃ p ∈ rs.foldl addToIdMap [], p.1 = s ∧ fn ∈ p.2) := by
  refine ⟨?_, ?_, ?_⟩
  · intro f fields s hs hne
    have hemp : s.isEmpty = false := by
      cases h : s.isEmpty
      · rfl
      · exact absurd ((String.isEmpty_iff s).mp h) hne
    have hi : idCheck f fields
        = ([], if s = stemOf f then [] else [idMismatchMsg s (stemOf f)], some s) := by
      unfold idCheck
      rw [hs]
      by_cases hst : s = stemOf f
      · subst hst
        simp [hemp]
      · simp [hemp, hst]
    refine ⟨?_, hi, ?_⟩
    · rw [validateFile_obj_eq]
      show (fieldChecks f fields).2.2 = some s
      simp [fieldChecks, hi]
    · intro hst
      rw [validateFile_obj_eq]
      show idMismatchMsg s (stemOf f) ∈ (fieldChecks f fields).2.1
      simp [fieldChecks, hi, hst]
  · intro f fields hyp
    have hi : idCheck f fields = ([idMsg], [], none) := by
      unfold idCheck
      cases hlook : fields.lookup "id" with
      | none => rfl
      | some v =>
        cases v with
        | str s =>
          have hse : s = "" := hyp s hlook
          subst hse
          rfl
        | null => rfl
        | bool b => rfl
        | num n => rfl
        | arr l => rfl
        | obj o => rfl
    refine ⟨?_, hi⟩
    rw [validateFile_obj_eq]
    show (fieldChecks f fields).2.2 = none
    simp [fieldChecks, hi]
  · intro rs fn r s h1 h2 h3
    exact mem_idMap_of_mem rs [] fn r s h1 h2 h3

/-- Witness for C4 at a concrete document whose id mismatches the stem
case-sensitively, a concrete document with a numeric id, and a concrete
result list. -/
theorem C4_id_extraction_witness :
    ((validateFile "beta.json" (Except.ok (Json.obj [("id", Json.str "alpha")]))).id
        = some "alpha" ∧
      idMismatchMsg "alpha" (stemOf "beta.json")
        ∈ (validateFile "beta.json"
            (Except.ok (Json.obj [("id", Json.str "alpha")]))).warnings) ∧
    ((validateFile "beta.json" (Except.ok (Json.obj [("id", Json.num 3)]))).id
        = none ∧
      idCheck "beta.json" [("id", Json.num 3)] = ([idMsg], [], none)) ∧
    (∃ p ∈ [("beta.json", FileResult.mk [] [] (some "alpha") [])].foldl addToIdMap [],
      p.1 = "alpha" ∧ "beta.json" ∈ p.2) := by
  refine ⟨⟨?_, ?_⟩, ?_, ?_⟩
  · exact (C4_id_extraction.1 "beta.json" [("id", Json.str "alpha")] "alpha"
      rfl (by decide)).1
  · exact (C4_id_extraction.1 "beta.json" [("id", Json.str "alpha")] "alpha"
      rfl (by decide)).2.2 (by decide)
  · exact C4_id_extraction.2.1 "beta.json" [("id", Json.num 3)]
      (fun s h => Option.noConfusion h (fun h2 => Json.noConfusion h2))
  · exact C4_id_extraction.2.2 [("beta.json", FileResult.mk [] [] (some "alpha") [])]
      "beta.json" (FileResult.mk [] [] (some "alpha") []) "alpha"
      (List.mem_cons_self _ _) rfl (by decide)

/-- C7: a record document without an `id` key gets the id error and a null
extracted id (the id step contributes exactly that one error, and when
every other field check passes the whole error list is exactly that one
error), and a file all of whose results carry a null id is never filed in
the identifier map, so it cannot take part in duplicate detection. -/
theorem C7_missing_id (f : String) (fields : List (String × Json))
    (hlook : fields.lookup "id" = none) :
    (validateFile f (Except.ok (Json.obj fields))).id = none ∧
    idCheck f fields = ([idMsg], [], none) ∧
    idMsg ∈ (validateFile f (Except.ok (Json.obj fields))).errors ∧
    (filenameMatches f = true → FieldShapeOk fields →
      (validateFile f (Except.ok (Json.obj fields))).errors = [idMsg]) ∧
    (∀ rs : List (String × FileResult),
      (∀ r : FileResult, (f, r) ∈ rs → r.id = none) →
      ∀ p ∈ rs.foldl addToIdMap [], f ∉ p.2) := by
  have hi : idCheck f fields = ([idMsg], [], none) := by
    unfold idCheck
    rw [hlook]
  refine ⟨?_, hi, ?_, ?_, ?_⟩
  · rw [validateFile_obj_eq]
    show (fieldChecks f fields).2.2 = none
    simp [fieldChecks, hi]
  · rw [validateFile_obj_eq]
    show idMsg ∈ filenameErrors f ++ (fieldChecks f fields).1
    apply List.mem_append_right
    simp [fieldChecks, hi]
  · intro hfn hsh
    obtain ⟨hname, hsupc, hdesc, hcat, hexc, hunk⟩ := shapeChecks_nil fields hsh
    rw [validateFile_obj_eq]
    show filenameErrors f ++ (fieldChecks f fields).1 = [idMsg]
    rw [filenameErrors, if_pos hfn]
    simp [fieldChecks, hi, hname, hsupc, hdesc, hcat, hexc]
  · intro rs hrs p hp hf
    rcases idMap_filenames_src rs [] p hp f hf with ⟨q, hq, _⟩ | ⟨r, hr, h1, h2⟩
    · exact absurd hq (List.not_mem_nil q)
    · have hpr : (f, r.2) = r := by
        rw [← h1]
      have hid : r.2.id = none := hrs r.2 (by rw [hpr]; exact hr)
      rw [hid] at h2
      exact Bool.noConfusion h2

/-- Witness for C7 at a concrete record without `id` whose other fields are
all valid, and a concrete result list carrying a null id. -/
theorem C7_missing_id_witness :
    List.lookup "id" [("name", Json.str "N"), ("supplement", Json.str ""),
        ("description", Json.str "d"), ("category", Json.str "general"),
        ("examples", Json.arr [])] = none ∧
    (validateFile "alpha.json" (Except.ok (Json.obj
        [("name", Json.str "N"), ("supplement", Json.str ""),
         ("description", Json.str "d"), ("category", Json.str "general"),
         ("examples", Json.arr [])]))).errors = [idMsg] ∧
    (∀ p ∈ [("alpha.json", FileResult.mk [idMsg] [] none [])].foldl addToIdMap [],
      "alpha.json" ∉ p.2) := by
  refine ⟨rfl, ?_, ?_⟩
  · exact (C7_missing_id "alpha.json"
      [("name", Json.str "N"), ("supplement", Json.str ""),
       ("description", Json.str "d"), ("category", Json.str "general"),
       ("examples", Json.arr [])] (by simp [List.lookup])).2.2.2.1 (by decide)
      ⟨⟨"N", rfl, by decide⟩, ⟨"", rfl⟩, ⟨"d", rfl⟩,
       ⟨"general", rfl, by decide⟩,
       ⟨[], rfl, fun ex hex => absurd hex (List.not_mem_nil ex)⟩,
       by decide⟩
  · exact (C7_missing_id "alpha.json" [("name", Json.str "N")]
      (by simp [List.lookup])).2.2.2.2
      [("alpha.json", FileResult.mk [idMsg] [] none [])]
      (fun r hr => by
        rw [List.mem_singleton] at hr
        rw [show r = FileResult.mk [idMsg] [] none [] from (Prod.mk.injEq _ _ _ _).mp hr |>.2]
      )

/-- C10: a discovered file whose read (or parse) throws is not a run-level
fatal error: the run emits no fatal message, still validates every
discovered file, records for that file exactly the per-file outcome of the
shared catch handler (the filename step's errors plus one parse error, null
id), and folds it into the totals, making the exit status 1 like any other
per-file error. -/
theorem C10_read_failure_nonfatal (entries : List String)
    (read : String → Except String Json) (f m : String)
    (hf : f ∈ discover entries) (hread : read f = Except.error m) :
    (runMain entries read).fatalOutput = [] ∧
    (runMain entries read).results
      = (discover entries).map (fun g => (g, validateFile g (read g))) ∧
    (f, validateFile f (Except.error m)) ∈ (runMain entries read).results ∧
    (validateFile f (Except.error m)).errors = filenameErrors f ++ [invalidJsonMsg m] ∧
    (validateFile f (Except.error m)).id = none ∧
    (runMain entries read).totalErrors
      = (((runMain entries read).results.map (fun p => p.2.errors.length)).sum)
        + (runMain entries read).duplicates ∧
    (runMain entries read).exitCode = 1 := by
  have hne : discover entries ≠ [] := by
    intro h
    rw [h] at hf
    exact absurd hf (List.not_mem_nil f)
  rw [runMain_nonempty_eq entries read hne]
  have hres : (f, validateFile f (Except.error m))
      ∈ (discover entries).map (fun g => (g, validateFile g (read g))) := by
    have h0 : (f, validateFile f (read f))
        ∈ (discover entries).map (fun g => (g, validateFile g (read g))) :=
      List.mem_map_of_mem (fun g => (g, validateFile g (read g))) hf
    rwa [hread] at h0
  refine ⟨runBody_fatalOutput _ _, runBody_results _ _, ?_, ?_, ?_,
    runBody_totalErrors _ _, ?_⟩
  · rw [runBody_results]
    exact hres
  · rw [validateFile_error_eq]
  · rw [validateFile_error_eq]
  · have h1 : 1 ≤ (validateFile f (Except.error m)).errors.length := by
      rw [validateFile_error_eq]
      simp
    have hmem : (validateFile f (Except.error m)).errors.length
        ∈ ((runBody (discover entries) read).results.map (fun p => p.2.errors.length)) := by
      rw [runBody_results]
      exact List.mem_map_of_mem (fun p => p.2.errors.length) hres
    have hle := List.le_sum_of_mem hmem
    have hpos : 0 < (runBody (discover entries) read).totalErrors := by
      rw [runBody_totalErrors]
      omega
    rw [runBody_exitCode, if_pos hpos]

/-- Witness for C10 at a concrete one-file directory whose file fails to
read. -/
theorem C10_read_failure_nonfatal_witness :
    "alpha.json" ∈ discover ["alpha.json"] ∧
    (fun _ => Except.error "boom" : String → Except String Json) "alpha.json"
      = Except.error "boom" ∧
    (runMain ["alpha.json"] (fun _ => Except.error "boom")).fatalOutput = [] ∧
    (runMain ["alpha.json"] (fun _ => Except.error "boom")).exitCode = 1 := by
  have h := C10_read_failure_nonfatal ["alpha.json"] (fun _ => Except.error "boom")
    "alpha.json" "boom" (by decide) rfl
  exact ⟨by decide, rfl, h.1, h.2.2.2.2.2.2⟩

/-- C1, counterexample: on a directory with zero candidate files the exit
status is 1 while the total error count in the claim's sense (per-file plus
cross-file) is 0, so "exit failure iff total error count positive" fails as
a biconditional over all runs. -/
theorem C1_counterexample :
    (runMain [] (fun _ => Except.error "e")).exitCode = 1 ∧
    (runMain [] (fun _ => Except.error "e")).totalErrors = 0 ∧
    (runMain [] (fun _ => Except.error "e")).results = [] ∧
    (runMain [] (fun _ => Except.error "e")).duplicates = 0 := by
  rw [runMain_empty_eq [] _ rfl]
  exact ⟨rfl, rfl, rfl, rfl⟩

/-- C1, amended: for every run that discovers at least one candidate file,
the exit status is 1 exactly when the total error count (the sum of the
per-file error counts plus the cross-file duplicate count) is positive and
0 otherwise — a function of the error counts alone, so warnings never
affect it; a run that discovers zero candidate files exits 1 regardless. -/
theorem C1_exit_status (entries : List String) (read : String → Except String Json) :
    (discover entries ≠ [] →
      (runMain entries read).totalErrors
        = ((runMain entries read).results.map (fun p => p.2.errors.length)).sum
          + (runMain entries read).duplicates ∧
      (runMain entries read).exitCode
        = if 0 < (runMain entries read).totalErrors then 1 else 0) ∧
    (discover entries = [] → (runMain entries read).exitCode = 1) := by
  constructor
  · intro hne
    rw [runMain_nonempty_eq entries read hne]
    exact ⟨runBody_totalErrors _ _, runBody_exitCode _ _⟩
  · intro he
    rw [runMain_empty_eq entries read he]

/-- Witness for C1 at a concrete nonempty directory and a concrete empty
one. -/
theorem C1_exit_status_witness :
    discover ["alpha.json"] ≠ [] ∧
    (runMain ["alpha.json"] (fun _ => Except.error "e")).exitCode
      = (if 0 < (runMain ["alpha.json"] (fun _ => Except.error "e")).totalErrors
         then 1 else 0) ∧
    discover ["nope.txt"] = [] ∧
    (runMain ["nope.txt"] (fun _ => Except.error "e")).exitCode = 1 := by
  refine ⟨by decide, ?_, by decide, ?_⟩
  · exact ((C1_exit_status ["alpha.json"] (fun _ => Except.error "e")).1 (by decide)).2
  · exact (C1_exit_status ["nope.txt"] (fun _ => Except.error "e")).2 (by decide)

/-- C5: a document that parses to a record with every recognized field
present and correctly typed (non-empty `id` equal to the filename stem,
non-empty string `name`, string `supplement`, string `description`,
`category` in the enumerated set, `examples` a sequence of records with
string `scenario` and `commands`), no unknown keys, and a conforming
filename, gets zero errors and zero warnings; a nonempty directory of only
such documents with pairwise-distinct ids exits with status 0. -/
theorem C5_valid_documents :
    (∀ (f : String) (j : Json), ValidDoc f j →
      (validateFile f (Except.ok j)).errors = [] ∧
      (validateFile f (Except.ok j)).warnings = []) ∧
    (∀ (entries : List String) (read : String → Except String Json),
      discover entries ≠ [] →
      (∀ f ∈ discover entries, ∃ j, read f = Except.ok j ∧ ValidDoc f j) →
      ((discover entries).map stemOf).Nodup →
      (runMain entries read).exitCode = 0) := by
  constructor
  · intro f j h
    rw [validateFile_of_validDoc f j h]
    exact ⟨rfl, rfl⟩
  · intro entries read hne hall hnd
    rw [runMain_nonempty_eq entries read hne]
    have hvf : ∀ f ∈ discover entries, validateFile f (read f)
        = ⟨[], [], some (stemOf f), ["\nValidating strategies/" ++ f, "  ok"]⟩ := by
      intro f hf
      obtain ⟨j, hj, hv⟩ := hall f hf
      rw [hj]
      exact validateFile_of_validDoc f j hv
    have hsum : (((discover entries).map
        (fun f => (f, validateFile f (read f)))).map
          (fun p => p.2.errors.length)).sum = 0 := by
      apply sum_eq_zero_of_all_zero
      intro x hx
      rw [List.map_map] at hx
      obtain ⟨f, hf, hxf⟩ := List.mem_map.mp hx
      rw [← hxf]
      show (validateFile f (read f)).errors.length = 0
      rw [hvf f hf]
      rfl
    have hkeys : ((discover entries).map
        (fun f => (f, validateFile f (read f)))).filterMap extractedKey
          = (discover entries).map stemOf := by
      rw [List.filterMap_map]
      apply filterMap_eq_map_of
      intro f hf
      show extractedKey (f, validateFile f (read f)) = some (stemOf f)
      obtain ⟨j, hj, fields, hjj, hfn, hstem, _⟩ := hall f hf
      have hse : (stemOf f).isEmpty = false := by
        cases h2 : (stemOf f).isEmpty
        · rfl
        · exact absurd ((String.isEmpty_iff _).mp h2) hstem
      rw [hvf f hf]
      simp [extractedKey, hse]
    have hglen : ∀ p ∈ ((discover entries).map
        (fun f => (f, validateFile f (read f)))).foldl addToIdMap [],
        p.2.length ≤ 1 := by
      intro p hp
      have hnd2 : ((((discover entries).map
          (fun f => (f, validateFile f (read f)))).foldl addToIdMap []).map
            Prod.fst).Nodup :=
        foldl_addToIdMap_keys_nodup _ [] (by simp)
      have hlook := lookup_of_nodup_mem _ p hnd2 hp
      have hlen := foldl_addToIdMap_lookup_len
        ((discover entries).map (fun f => (f, validateFile f (read f)))) [] p.1
      rw [hlook, hkeys] at hlen
      have hcount := List.nodup_iff_count_le_one.mp hnd p.1
      simp only [Option.getD_some] at hlen
      simp at hlen
      omega
    have hfilter : (((discover entries).map
        (fun f => (f, validateFile f (read f)))).foldl addToIdMap []).filter
          (fun p => decide (p.2.length > 1)) = [] := by
      rw [List.filter_eq_nil_iff]
      intro p hp
      have := hglen p hp
      simp
      omega
    have hcross : (crossFileCheck (((discover entries).map
        (fun f => (f, validateFile f (read f)))).foldl addToIdMap [])).2 = 0 := by
      rw [crossFileCheck, hfilter]
      rfl
    have htot : (runBody (discover entries) read).totalErrors = 0 := by
      rw [runBody_totalErrors, runBody_duplicates, runBody_idMap, runBody_results,
        hsum, hcross]
    rw [runBody_exitCode, htot]
    rfl

/-- Witness for C5 at a concrete one-document directory holding a fully
valid document. -/
theorem C5_valid_documents_witness :
    (validateFile "alpha.json" (Except.ok (Json.obj
      [("id", Json.str "alpha"), ("name", Json.str "A"),
       ("supplement", Json.str ""), ("description", Json.str "d"),
       ("category", Json.str "general"), ("examples", Json.arr [])]))).errors = [] ∧
    discover ["alpha.json"] ≠ [] ∧
    ((discover ["alpha.json"]).map stemOf).Nodup ∧
    (runMain ["alpha.json"] (fun _ => Except.ok (Json.obj
      [("id", Json.str "alpha"), ("name", Json.str "A"),
       ("supplement", Json.str ""), ("description", Json.str "d"),
       ("category", Json.str "general"), ("examples", Json.arr [])]))).exitCode
      = 0 := by
  have hdoc : ValidDoc "alpha.json" (Json.obj
      [("id", Json.str "alpha"), ("name", Json.str "A"),
       ("supplement", Json.str ""), ("description", Json.str "d"),
       ("category", Json.str "general"), ("examples", Json.arr [])]) :=
    ⟨[("id", Json.str "alpha"), ("name", Json.str "A"),
      ("supplement", Json.str ""), ("description", Json.str "d"),
      ("category", Json.str "general"), ("examples", Json.arr [])],
     rfl, by decide, by decide, rfl,
     ⟨"A", rfl, by decide⟩, ⟨"", rfl⟩, ⟨"d", rfl⟩,
     ⟨"general", rfl, by decide⟩,
     ⟨[], rfl, fun ex hex => absurd hex (List.not_mem_nil ex)⟩,
     by decide⟩
  refine ⟨(C5_valid_documents.1 "alpha.json" _ hdoc).1, by decide, by decide, ?_⟩
  apply C5_valid_documents.2 ["alpha.json"] _ (by decide) ?_ (by decide)
  intro f hf
  have hfd : f = "alpha.json" := by
    have hd : discover ["alpha.json"] = ["alpha.json"] := by decide
    rw [hd] at hf
    exact List.mem_singleton.mp hf
  subst hfd
  exact ⟨_, rfl, hdoc⟩
